import Mathlib

/-!
Shallow embedding of `cwl_tes/tes.py` (the TES backend of cwl-tes): the
job-description translator (`create_task_msg`, `get_container`), the I/O
resolver (`parse_job_order`, `parse_listing`, `get_inputs`), the submission
and polling engine (`run`, `is_done`) and the output collector / cleanup.

Python values appearing in CWL job orders and requirement lists are modelled
by the inductive type `PyVal`; Python dicts are association lists with unique
keys in insertion order.  Python exceptions are modelled by `Except Err`:
`Err.unsupportedRequirement` and `Err.workflowException` mirror the cwltool
exception classes raised by the source, `Err.pyError` stands for a Python
runtime error (KeyError / TypeError / AttributeError), and `Err.clientError`
for an exception raised by the TES HTTP client.  Numbers are modelled by `Rat`
(the source divides mebibyte quantities by the float literal 953.674; the
rational model makes the conversion exact, which is what the spec asserts up
to floating-point rounding).  Filesystem and network side effects (writing
staged file contents, HTTP calls, `time.sleep`) are modelled by explicit
oracles/records: the `Client` structure scripts the remote service's answers
and `RunResult` records the observable effects of one `run`.
-/

namespace CwlTes

/-- Model of a Python value as it appears in job orders, requirement lists
and generated-file listings.  Dicts are association lists (unique keys,
insertion order), numbers are rationals. -/
inductive PyVal where
  | pstr : String → PyVal
  | pnum : Rat → PyVal
  | pbool : Bool → PyVal
  | pnone : PyVal
  | pdict : List (String × PyVal) → PyVal
  | plist : List PyVal → PyVal
deriving Repr

/-- Exceptions of the embedded code. -/
inductive Err where
  | unsupportedRequirement : String → Err
  | workflowException : String → Err
  | pyError : Err
  | clientError : String → Err
deriving Repr, DecidableEq

/-- Python `d[k]` / `d.get(k)` on an association-list dict: first match. -/
def getKey : List (String × PyVal) → String → Option PyVal
  | [], _ => none
  | (k', v) :: rest, k => if k' = k then some v else getKey rest k

/-- Python `isinstance(v, str)`. -/
def isStr : PyVal → Bool
  | .pstr _ => true
  | _ => false

/-- Python `v == s` for a string literal `s`: true only for an equal string. -/
def isStrEq (v : PyVal) (s : String) : Bool :=
  match v with
  | .pstr t => t = s
  | _ => false

/-- Python `v is None`. -/
def isPyNone : PyVal → Bool
  | .pnone => true
  | _ => false

/-- Extract a Python string; anything else is a runtime type error. -/
def asStr : PyVal → Except Err String
  | .pstr s => .ok s
  | _ => .error .pyError

/-- Extract a Python dict; attribute access on anything else is a runtime
error. -/
def asDict : PyVal → Except Err (List (String × PyVal))
  | .pdict d => .ok d
  | _ => .error .pyError

/-- Numeric coercion as used by Python division: numbers divide, `bool` is
an int subtype, everything else raises `TypeError`. -/
def toNum : PyVal → Except Err Rat
  | .pnum q => .ok q
  | .pbool b => .ok (if b then 1 else 0)
  | _ => .error .pyError

/-- `tes.Input` wire record (py-tes). -/
structure TesInput where
  name : String
  description : String
  url : Option String
  path : String
  content : Option String
  type : String
deriving Repr, DecidableEq

/-- `tes.Output` wire record (py-tes); `type` defaults to `"FILE"`. -/
structure TesOutput where
  name : String
  url : Option String
  path : Option String
  type : String
deriving Repr, DecidableEq

/-- `tes.Executor` wire record. -/
structure TesExecutor where
  command : List String
  image : String
  workdir : String
  stdout : Option String
  stderr : Option String
  stdin : Option String
  env : List (String × String)
deriving Repr, DecidableEq

/-- `tes.Resources` wire record.  `cpu_cores` keeps the raw Python value the
source passes through; ram/disk are the converted gigabyte quantities. -/
structure TesResources where
  cpu_cores : Option PyVal
  ram_gb : Option Rat
  disk_gb : Option Rat
deriving Repr

/-- `tes.Task` wire record (the fields the source populates). -/
structure TesTask where
  name : String
  description : PyVal
  executors : List TesExecutor
  inputs : List TesInput
  outputs : List TesOutput
  resources : TesResources
  tag_documentId : Option PyVal
deriving Repr

/-- `os.path.join` / `StdFsAccess.join` on two components (POSIX rules). -/
def pathJoin (a b : String) : String :=
  if b.startsWith "/" then b
  else if a = "" then b
  else if a.endsWith "/" then a ++ b
  else a ++ "/" ++ b

/-- `os.path.basename`: the component after the last slash. -/
def pyBasename (p : String) : String :=
  ((p.splitOn "/").getLast?).getD ""

/-- `schema_salad.ref_resolver.file_uri`, modelled as the external
collaborator it is: prepend the file scheme. -/
def file_uri (p : String) : String := "file://" ++ p

/-- `TESTask.docker_workdir` (fixed in `__init__`). -/
def docker_workdir : String := "/var/spool/cwl"

/-- The state of one `TESTask` instance at the start of `run`: the fields of
the Python object (and of its `runtime_context` / `builder`) that the
embedded methods read.  `spec_requirements`/`spec_hints` are
`spec.get("requirements", [])` / `spec.get("hints", [])`, `spec_doc` is
`spec.get("doc", "")`, `spec_id` is `spec.get("id")`. -/
structure Ctx where
  name : String
  spec_requirements : List PyVal
  spec_hints : List PyVal
  spec_doc : PyVal
  spec_id : Option PyVal
  builder_requirements : List PyVal
  joborder : List (String × PyVal)
  listing : List PyVal
  stdout : Option String
  stderr : Option String
  stdin : Option String
  command_line : List String
  environment : List (String × String)
  preserve_environment : Option (List String)
  preserve_entire_environment : Bool
  os_environ : List (String × String)
  default_container : Option String
  outdir : String
  tmpdir : String
  stagedir : String
  stagedirExists : Bool
  rm_tmpdir : Bool
deriving Repr

/-- Loop body of `TESTask.get_container`: each requirement or hint whose
`class` equals `"DockerRequirement"` overwrites the container with its
`dockerPull`, else its `dockerImageId`, else the hard-coded default. -/
def get_container_loop (default : String) : List PyVal → PyVal → Except Err PyVal
  | [], container => .ok container
  | i :: rest, container =>
    match i with
    | .pdict d =>
        get_container_loop default rest
          (if isStrEq ((getKey d "class").getD (.pstr "NA")) "DockerRequirement" then
            (getKey d "dockerPull").getD ((getKey d "dockerImageId").getD (.pstr default))
          else container)
    | _ => .error .pyError

/-- `TESTask.get_container`: start from the hard-coded `"python:2.7"`,
replaced by the configured default container when set, then fold the
requirement/hint list. -/
def get_container (ctx : Ctx) : Except Err PyVal :=
  let default := "python:2.7"
  let start : PyVal :=
    match ctx.default_container with
    | some c => .pstr c
    | none => .pstr default
  get_container_loop default (ctx.spec_requirements ++ ctx.spec_hints) start

/-- `TESTask.create_input`: build one `tes.Input` from a leaf
file/directory reference; the `contents` branch inlines the content, the
other branch carries the remote location as url. -/
def create_input (name : String) (d : List (String × PyVal)) : Except Err TesInput :=
  match getKey d "contents" with
  | some c =>
    match asStr ((getKey d "path").getD .pnone) with
    | .error e => .error e
    | .ok path =>
      match asStr c with
      | .error e => .error e
      | .ok content =>
        match asStr ((getKey d "class").getD .pnone) with
        | .error e => .error e
        | .ok cls =>
            .ok ⟨name, "cwl_input:" ++ name, none, path, some content,
              cls.toUpper⟩
  | none =>
    match asStr ((getKey d "location").getD .pnone) with
    | .error e => .error e
    | .ok url =>
      match asStr ((getKey d "path").getD .pnone) with
      | .error e => .error e
      | .ok path =>
        match asStr ((getKey d "class").getD .pnone) with
        | .error e => .error e
        | .ok cls =>
            .ok ⟨name, "cwl_input:" ++ name, some url, path, none,
              cls.toUpper⟩

/-- The leaf test of `parse_job_order`:
`all([i in v for i in ["location", "path", "class"]])`. -/
def isLeafDict (kvs : List (String × PyVal)) : Bool :=
  (getKey kvs "location").isSome && (getKey kvs "path").isSome
    && (getKey kvs "class").isSome

theorem sizeOf_getKey {kvs : List (String × PyVal)} {k : String} {v : PyVal}
    (h : getKey kvs k = some v) : sizeOf v < 1 + sizeOf kvs := by
  induction kvs with
  | nil => simp [getKey] at h
  | cons p rest ih =>
    obtain ⟨k', v'⟩ := p
    simp only [getKey] at h
    by_cases hk : k' = k
    · simp [hk] at h
      subst h
      simp
      omega
    · simp [hk] at h
      have := ih h
      simp
      omega

mutual

/-- `TESTask.parse_job_order`: a dict carrying `location`, `path` and
`class` is a leaf reference emitted through `create_input`, followed by its
`secondaryFiles` entries recursively under their `basename`; any other dict
is walked key-by-key, recursing into dict values and stopping at the first
non-dict value; a list is walked index-by-index under the name `k[i]`,
stopping at the first non-dict element; anything else contributes nothing.
The accumulated list is returned (the Python code mutates and returns
`inputs`). -/
def parse_job_order (k : String) (v : PyVal) (inputs : List TesInput) :
    Except Err (List TesInput) :=
  match v with
  | .pdict kvs =>
    if isLeafDict kvs then
      match create_input k kvs with
      | .error e => .error e
      | .ok inp =>
        match hsec : getKey kvs "secondaryFiles" with
        | none => .ok (inputs ++ [inp])
        | some (.plist fs) =>
          have : sizeOf fs < 1 + sizeOf kvs := by
            have := sizeOf_getKey hsec
            simp at this
            omega
          parse_secondary fs (inputs ++ [inp])
        | some _ => .error .pyError
    else
      parse_pairs kvs inputs
  | .plist vs => parse_list_elems k 0 vs inputs
  | _ => .ok inputs
termination_by sizeOf v
decreasing_by
  all_goals simp_wf <;> try omega

/-- The `for f in v["secondaryFiles"]` loop of `parse_job_order`: each entry
is recursed under its `basename` (a missing or non-string `basename`, or a
non-dict entry, is a Python runtime error). -/
def parse_secondary (fs : List PyVal) (inputs : List TesInput) :
    Except Err (List TesInput) :=
  match fs with
  | [] => .ok inputs
  | f :: rest =>
    match f with
    | .pdict fkvs =>
      match getKey fkvs "basename" with
      | some (.pstr bn) =>
        match parse_job_order bn (.pdict fkvs) inputs with
        | .error e => .error e
        | .ok inputs' => parse_secondary rest inputs'
      | _ => .error .pyError
    | _ => .error .pyError
termination_by sizeOf fs
decreasing_by
  all_goals simp_wf <;> try omega

/-- The `for sk, sv in v.items()` walk of a non-leaf dict: recurse into dict
values, `break` at the first non-dict value (returning what was gathered so
far). -/
def parse_pairs (kvs : List (String × PyVal)) (inputs : List TesInput) :
    Except Err (List TesInput) :=
  match kvs with
  | [] => .ok inputs
  | (sk, sv) :: rest =>
    match sv with
    | .pdict d =>
      match parse_job_order sk (.pdict d) inputs with
      | .error e => .error e
      | .ok inputs' => parse_pairs rest inputs'
    | _ => .ok inputs
termination_by sizeOf kvs
decreasing_by
  all_goals simp_wf <;> try omega

/-- The `for i in range(len(v))` walk of a list: recurse into dict elements
under the name `k[i]`, `break` at the first non-dict element. -/
def parse_list_elems (k : String) (i : Nat) (vs : List PyVal)
    (inputs : List TesInput) : Except Err (List TesInput) :=
  match vs with
  | [] => .ok inputs
  | v :: rest =>
    match v with
    | .pdict d =>
      match parse_job_order (k ++ "[" ++ toString i ++ "]") (.pdict d) inputs with
      | .error e => .error e
      | .ok inputs' => parse_list_elems k (i + 1) rest inputs'
    | _ => .ok inputs
termination_by sizeOf vs
decreasing_by
  all_goals simp_wf <;> try omega

end

/-- One iteration of the `for item in listing` loop of
`TESTask.parse_listing`: an entry carrying a `writable` key (any value) is
rejected with `UnsupportedRequirement`; an entry with inline `contents`
gets a staging location under `tmpdir` (the actual file write is a
filesystem side effect outside the model), others use their `location`;
the entry becomes an input targeting the in-container working directory
under its `basename`. -/
def parse_listing_item (ctx : Ctx) (item : PyVal) : Except Err TesInput :=
  match item with
  | .pdict d =>
    if (getKey d "writable").isSome then
      .error (.unsupportedRequirement
        "The TES spec does not allow for writable inputs")
    else
      match
        (match getKey d "contents" with
         | some _ =>
           match asStr ((getKey d "basename").getD .pnone) with
           | .error e => .error e
           | .ok bn => .ok (pathJoin ctx.tmpdir bn)
         | none => asStr ((getKey d "location").getD .pnone) :
           Except Err String)
      with
      | .error e => .error e
      | .ok loc =>
        match asStr ((getKey d "basename").getD .pnone) with
        | .error e => .error e
        | .ok bn =>
          match asStr ((getKey d "class").getD .pnone) with
          | .error e => .error e
          | .ok cls =>
              .ok ⟨bn, "InitialWorkDirRequirement:cwl_input:" ++ bn,
                some (file_uri loc), pathJoin docker_workdir bn, none,
                cls.toUpper⟩
  | _ => .error .pyError

/-- `TESTask.parse_listing`: process the generated-files entries in order,
appending one input descriptor per entry, with the first raising entry
aborting the walk. -/
def parse_listing (ctx : Ctx) : List PyVal → List TesInput →
    Except Err (List TesInput)
  | [], inputs => .ok inputs
  | item :: rest, inputs =>
    match parse_listing_item ctx item with
    | .error e => .error e
    | .ok inp => parse_listing ctx rest (inputs ++ [inp])

/-- The `for k, v in self.joborder.items()` loop of `get_inputs`. -/
def job_order_walk : List (String × PyVal) → List TesInput →
    Except Err (List TesInput)
  | [], inputs => .ok inputs
  | (k, v) :: rest, inputs =>
    match parse_job_order k v inputs with
    | .error e => .error e
    | .ok inputs2 => job_order_walk rest inputs2

/-- `TESTask.get_inputs`: primary and secondary job-order inputs first, then
the generated-files listing. -/
def get_inputs (ctx : Ctx) : Except Err (List TesInput) :=
  match job_order_walk ctx.joborder [] with
  | .error e => .error e
  | .ok ins => parse_listing ctx ctx.listing ins

/-- Python dict assignment `env[k] = v` on an association list: update in
place when the key exists, else append. -/
def setKey : List (String × String) → String → String →
    List (String × String)
  | [], k, v => [(k, v)]
  | (k', v') :: rest, k, v =>
      if k' = k then (k, v) :: rest else (k', v') :: setKey rest k v

/-- `TESTask.get_envvars` (POSIX host, so `onWindows()` is false): preserve
selected (or all) process environment variables that are not already set,
then force `HOME` to the output directory and `TMPDIR` to the temporary
directory. -/
def get_envvars (ctx : Ctx) : List (String × String) :=
  let vars_to_preserve : Option (List String) :=
    if ctx.preserve_entire_environment then some (ctx.os_environ.map Prod.fst)
    else ctx.preserve_environment
  let env :=
    match vars_to_preserve with
    | none => ctx.environment
    | some vs =>
        ctx.os_environ.foldl
          (fun e kv =>
            if kv.1 ∈ vs ∧ kv.1 ∉ e.map Prod.fst then e ++ [kv] else e)
          ctx.environment
  setKey (setKey env "HOME" ctx.outdir) "TMPDIR" ctx.tmpdir

/-- `TESTask.output2url`: a URI under the local output directory for the
basename of the given path (`None` passes through). -/
def output2url (ctx : Ctx) : Option String → Option String
  | some p => some (file_uri (pathJoin ctx.outdir (pyBasename p)))
  | none => none

/-- `TESTask.output2path`: the path inside the in-container working
directory (`None` passes through). -/
def output2path : Option String → Option String
  | some p => some (pathJoin docker_workdir p)
  | none => none

/-- The value of `cpus`/`ram`/`disk` after one `ResourceRequirement` is
processed: the raw cpu value and the already-converted ram/disk gigabyte
quantities. -/
def ResTriple := PyVal × Rat × Rat

/-- The accumulator of the requirements loop in `create_task_msg`: the
resource triple of the last `ResourceRequirement` seen (if any), and the
output-descriptor list being extended. -/
def ReqAcc := Option ResTriple × List TesOutput

/-- The `i.get(kmin, i.get(kmax, None))` selection pattern of the
resource-requirement extraction (min preferred over max). -/
def sel_min_max (d : List (String × PyVal)) (kmin kmax : String) : PyVal :=
  (getKey d kmin).getD ((getKey d kmax).getD .pnone)

/-- One iteration of the `for i in self.builder.requirements` loop of
`create_task_msg`: a `ResourceRequirement` re-extracts cpus/ram/disk
(min preferred over max), rejects a missing or string-valued bound with
`UnsupportedRequirement`, and converts ram/disk from mebibytes with the
factor 1/953.674; a `DockerRequirement` with a non-`None`
`dockerOutputDirectory` appends one directory-typed output descriptor. -/
def req_step (ctx : Ctx) (acc : ReqAcc) (i : PyVal) : Except Err ReqAcc :=
  match i with
  | .pdict d =>
    let cls := (getKey d "class").getD (.pstr "NA")
    if isStrEq cls "ResourceRequirement" then
      let cpus := sel_min_max d "coresMin" "coresMax"
      let ram := sel_min_max d "ramMin" "ramMax"
      let disk := sel_min_max d "outdirMin" "outdirMax"
      if (isPyNone cpus || isStr cpus) || (isPyNone ram || isStr ram)
          || (isPyNone disk || isStr disk) then
        .error (.unsupportedRequirement
          "cwl-tes does not support dynamic resource requests")
      else
        match toNum ram with
        | .error e => .error e
        | .ok ramq =>
          match toNum disk with
          | .error e => .error e
          | .ok diskq =>
              .ok (some (cpus, ramq / (953.674 : Rat),
                diskq / (953.674 : Rat)), acc.2)
    else if isStrEq cls "DockerRequirement" then
      match getKey d "dockerOutputDirectory" with
      | some p =>
          if isPyNone p then .ok acc
          else
            match asStr p with
            | .error e => .error e
            | .ok ps =>
                .ok (acc.1, acc.2 ++
                  [⟨"dockerOutputDirectory", output2url ctx (some ""),
                    some ps, "DIRECTORY"⟩])
      | none => .ok acc
    else .ok acc
  | _ => .error .pyError

/-- The full `for i in self.builder.requirements` loop of
`create_task_msg`. -/
def req_loop (ctx : Ctx) : List PyVal → ReqAcc → Except Err ReqAcc
  | [], acc => .ok acc
  | i :: rest, acc =>
    match req_step ctx acc i with
    | .error e => .error e
    | .ok acc2 => req_loop ctx rest acc2

/-- The stdout and stderr output descriptors of `create_task_msg` (one
file-typed descriptor per declared stream). -/
def stream_outputs (ctx : Ctx) : List TesOutput :=
  (match ctx.stdout with
   | some so =>
       [⟨"stdout", output2url ctx (some so), output2path (some so), "FILE"⟩]
   | none => []) ++
  (match ctx.stderr with
   | some se =>
       [⟨"stderr", output2url ctx (some se), output2path (some se), "FILE"⟩]
   | none => [])

/-- The unconditional directory-typed whole-working-directory output
descriptor of `create_task_msg`. -/
def workdir_output (ctx : Ctx) : TesOutput :=
  ⟨"workdir", output2url ctx (some ""), some docker_workdir, "DIRECTORY"⟩

/-- `TESTask.create_task_msg`: resolve inputs, build the output-descriptor
list (stdout, stderr, then the whole working directory), resolve the
container image, fold the builder requirements for resources and
docker-output-directory descriptors, and assemble the wire task. -/
def create_task_msg (ctx : Ctx) : Except Err TesTask :=
  match get_inputs ctx with
  | .error e => .error e
  | .ok input_parameters =>
    match get_container ctx with
    | .error e => .error e
    | .ok container =>
      match req_loop ctx ctx.builder_requirements
          (none, stream_outputs ctx ++ [workdir_output ctx]) with
      | .error e => .error e
      | .ok acc =>
        match asStr container with
        | .error e => .error e
        | .ok image =>
          .ok
            { name := ctx.name
              description := ctx.spec_doc
              executors :=
                [⟨ctx.command_line, image, docker_workdir,
                  output2path ctx.stdout, output2path ctx.stderr, ctx.stdin,
                  get_envvars ctx⟩]
              inputs := input_parameters
              outputs := acc.2
              resources :=
                match acc.1 with
                | none => ⟨none, none, none⟩
                | some (c, r, dk) => ⟨some c, some r, some dk⟩
              tag_documentId := ctx.spec_id }

/-! ## Submission and polling engine -/

/-- The terminal-state list of `TESTask.is_done`. -/
def terminal_states : List String :=
  ["COMPLETE", "CANCELED", "EXECUTOR_ERROR", "SYSTEM_ERROR"]

/-- The remote TES service, scripted: the submission answer, the answer to
the n-th `get_task(id, "MINIMAL")` poll (a state string, or a raised
exception), and the answer to the n-th `get_task(id, "FULL")` diagnostic
fetch. -/
structure Client where
  createTask : Except String String
  getTaskMinimal : Nat → Except String String
  getTaskFull : Nat → Except String Unit

/-- The mutable state of the polling loop in `run`: the observed task
state, the 1-based failed-poll counter `current_try`, and the number of
MINIMAL polls and FULL diagnostic fetches performed so far. -/
structure LoopSt where
  state : String
  currentTry : Nat
  pollIdx : Nat
  fullIdx : Nat
deriving Repr, DecidableEq

/-- The loop state at entry of `run`'s polling loop (`self.state` is
`"UNKNOWN"` from `__init__`, `current_try = 1`). -/
def initLoopSt : LoopSt := ⟨"UNKNOWN", 1, 0, 0⟩

/-- How the polling loop ended: normally (`is_done` true, or `break` after
exhausting poll retries), by an exception escaping `is_done`'s diagnostic
fetch, or — a model artifact only — by running out of fuel. -/
inductive LoopOut where
  | done : LoopSt → LoopOut
  | raised : LoopSt → String → LoopOut
  | fuelOut : LoopSt → LoopOut
deriving Repr, DecidableEq

/-- The `while not self.is_done()` loop of `run`, fused with
`TESTask.is_done`: a terminal state other than `COMPLETE` triggers one
diagnostic `get_task(id, "FULL")` whose exception (if any) escapes the loop
unguarded; a non-terminal state sleeps and polls `get_task(id, "MINIMAL")`;
a poll exception increments `current_try` and retries while
`current_try <= 10`, else breaks with the last observed state. -/
def pollLoop (client : Client) : Nat → LoopSt → LoopOut
  | 0, st => .fuelOut st
  | fuel + 1, st =>
    if st.state ∈ terminal_states then
      if st.state ≠ "COMPLETE" then
        match client.getTaskFull st.fullIdx with
        | .error e => .raised { st with fullIdx := st.fullIdx + 1 } e
        | .ok _ => .done { st with fullIdx := st.fullIdx + 1 }
      else .done st
    else
      match client.getTaskMinimal st.pollIdx with
      | .ok s =>
          pollLoop client fuel { st with state := s, pollIdx := st.pollIdx + 1 }
      | .error _ =>
          if st.currentTry ≤ 10 then
            pollLoop client fuel
              { st with pollIdx := st.pollIdx + 1,
                        currentTry := st.currentTry + 1 }
          else .done { st with pollIdx := st.pollIdx + 1 }

/-- One callback invocation `output_callback(outputs, status)`.  The
success path passes `self.outputs` (which is still `None` when the
collected mapping was empty), the failure path passes the empty mapping. -/
structure CallbackCall where
  outputs : Option (List (String × String))
  status : String
deriving Repr, DecidableEq

/-- What `TESTask.cleanup` removes: the staging directory when it is set
and exists, the temporary directory exactly when `rm_tmpdir` was passed. -/
structure CleanupRec where
  stagedirRemoved : Bool
  tmpdirRemoved : Bool
deriving Repr, DecidableEq

/-- `TESTask.cleanup(rm_tmpdir)` as the record of removals it performs. -/
def cleanup (ctx : Ctx) : CleanupRec :=
  ⟨ctx.stagedir ≠ "" && ctx.stagedirExists, ctx.rm_tmpdir⟩

/-- The `self.outputs` field after the key/value cleaning loop of `run`:
it stays `None` (its `__init__` value) when the collected mapping is empty,
else it holds the cleaned mapping.  Values are modelled post-decoding. -/
def cleaned_outputs (outs : List (String × String)) :
    Option (List (String × String)) :=
  match outs with
  | [] => none
  | _ => some outs

/-- The observable effects of one `TESTask.run`: how many times the remote
service was asked to create a task, how many MINIMAL polls and FULL
diagnostic fetches happened, which callback was invoked (if any), whether
and how `cleanup` ran, the final `self.state`, the exception escaping
`run` (if any), and the fuel artifact flag. -/
structure RunResult where
  createCalls : Nat
  pollCalls : Nat
  fullCalls : Nat
  callback : Option CallbackCall
  cleanupCalls : Nat
  cleanupRec : Option CleanupRec
  finalState : String
  raised : Option Err
  fuelExhausted : Bool
deriving Repr, DecidableEq

/-- `TESTask.run`: translate (`create_task_msg`, outside any try/finally —
its exception escapes), submit (`create_task`, whose exception is re-raised
as a `WorkflowException` and also escapes), poll until terminal or retries
exhausted (a diagnostic-fetch exception escapes the loop and `run`), then
collect outputs — the success callback on a successful collection, the
failure callback with the empty mapping and `"permanentFail"` on any
collection exception — and finally clean up.  `collectResult` scripts the
external `collect_outputs` collaborator. -/
def run (ctx : Ctx) (client : Client)
    (collectResult : Except Unit (List (String × String))) (fuel : Nat) :
    RunResult :=
  match create_task_msg ctx with
  | .error e =>
      ⟨0, 0, 0, none, 0, none, "UNKNOWN", some e, false⟩
  | .ok _task =>
    match client.createTask with
    | .error e =>
        ⟨1, 0, 0, none, 0, none, "UNKNOWN", some (.workflowException e), false⟩
    | .ok _id =>
      match pollLoop client fuel initLoopSt with
      | .fuelOut st =>
          ⟨1, st.pollIdx, st.fullIdx, none, 0, none, st.state, none, true⟩
      | .raised st e =>
          ⟨1, st.pollIdx, st.fullIdx, none, 0, none, st.state,
            some (.clientError e), false⟩
      | .done st =>
          let cb : CallbackCall :=
            match collectResult with
            | .ok outs => ⟨cleaned_outputs outs, "success"⟩
            | .error _ => ⟨some [], "permanentFail"⟩
          ⟨1, st.pollIdx, st.fullIdx, some cb, 1, some (cleanup ctx),
            st.state, none, false⟩

/-! ## Concrete fixtures -/

/-- A minimal job: no declared streams, no job-order entries, no
generated-files listing, no requirements. -/
def baseCtx : Ctx :=
  { name := "test-job"
    spec_requirements := []
    spec_hints := []
    spec_doc := .pstr ""
    spec_id := none
    builder_requirements := []
    joborder := []
    listing := []
    stdout := none
    stderr := none
    stdin := none
    command_line := ["echo", "hello"]
    environment := []
    preserve_environment := none
    preserve_entire_environment := false
    os_environ := []
    default_container := none
    outdir := "/local/out"
    tmpdir := "/local/tmp"
    stagedir := "/local/stage"
    stagedirExists := true
    rm_tmpdir := false }

/-- A service that accepts the task, answers `RUNNING` to the first three
polls and `COMPLETE` to the fourth. -/
def client8 : Client :=
  ⟨.ok "task-1",
   fun n => if n < 3 then .ok "RUNNING" else .ok "COMPLETE",
   fun _ => .ok ()⟩

/-- A service whose task fails immediately: the first poll answers
`EXECUTOR_ERROR`; the diagnostic fetch succeeds. -/
def clientExecErr : Client :=
  ⟨.ok "task-1", fun _ => .ok "EXECUTOR_ERROR", fun _ => .ok ()⟩

/-- A service whose task completes on the first poll. -/
def clientComplete : Client :=
  ⟨.ok "task-1", fun _ => .ok "COMPLETE", fun _ => .ok ()⟩

/-- A service whose task fails immediately and whose diagnostic `FULL`
fetch raises. -/
def clientDiagFail : Client :=
  ⟨.ok "task-1", fun _ => .ok "EXECUTOR_ERROR", fun _ => .error "diag-boom"⟩

/-- A job whose generated-files listing contains an entry with
`writable: false`. -/
def ctxWritable : Ctx :=
  { baseCtx with listing := [.pdict [("writable", .pbool false)]] }

/-! ## C8: submit once, poll four times, then success -/

/-- C8: with a remote service that answers `RUNNING` to the first three
polls and `COMPLETE` to the fourth, `run` submits exactly once, performs
exactly 4 polls in the loop (and no diagnostic fetch), and invokes the
success callback with the collected outputs. -/
theorem c8_submit_once_poll_four_then_success
    (outs : List (String × String)) :
    (run baseCtx client8 (.ok outs) 10).createCalls = 1 ∧
    (run baseCtx client8 (.ok outs) 10).pollCalls = 4 ∧
    (run baseCtx client8 (.ok outs) 10).fullCalls = 0 ∧
    (run baseCtx client8 (.ok outs) 10).callback =
      some ⟨cleaned_outputs outs, "success"⟩ := by
  refine ⟨rfl, rfl, rfl, rfl⟩

/-! ## C1: routing of the final callback -/

/-- C1 counterexample: the polling loop exits in `EXECUTOR_ERROR` (not
`COMPLETE`), yet because output collection succeeds (here: a tool with no
required outputs, collected mapping empty), `run` invokes the **success**
callback — the failure callback is not invoked.  The callback choice
depends only on whether `collect_outputs` raises, never on the task
state. -/
theorem c1_counterexample :
    (run baseCtx clientExecErr (.ok []) 10).finalState ≠ "COMPLETE" ∧
    (run baseCtx clientExecErr (.ok []) 10).finalState = "EXECUTOR_ERROR" ∧
    (run baseCtx clientExecErr (.ok []) 10).callback =
      some ⟨none, "success"⟩ := by
  refine ⟨by decide, rfl, rfl⟩

/-- C1 amended: whenever the polling loop exits normally (in any state,
terminal failure or exhausted retries alike) and output collection raises,
`run` invokes the failure callback with the empty output mapping and the
permanent-failure status — and hence never the success callback.  The
exit state of the loop plays no role in the callback choice. -/
theorem c1_collection_failure_routes_to_permanentFail
    (ctx : Ctx) (client : Client) (fuel : Nat) (t : TesTask) (tid : String)
    (st : LoopSt)
    (h1 : create_task_msg ctx = .ok t)
    (h2 : client.createTask = .ok tid)
    (h3 : pollLoop client fuel initLoopSt = .done st) :
    (run ctx client (.error ()) fuel).callback =
      some ⟨some [], "permanentFail"⟩ := by
  simp [run, h1, h2, h3]

/-- Witness for C1 amended at a concrete input: a task that completes at
the first poll but whose collection raises still gets `permanentFail` with
the empty mapping. -/
theorem c1_collection_failure_witness :
    (run baseCtx clientComplete (.error ()) 10).callback =
      some ⟨some [], "permanentFail"⟩ :=
  c1_collection_failure_routes_to_permanentFail baseCtx clientComplete 10
    _ _ _ rfl rfl rfl

/-! ## C2: cleanup coverage -/

/-- C2 counterexample: a fatal pre-polling error (here
`UnsupportedRequirement` raised during translation by a writable
generated-files entry) escapes `run` before the `try/finally` protecting
collection is entered: cleanup runs zero times, not once. -/
theorem c2_counterexample :
    (run ctxWritable client8 (.ok []) 10).cleanupCalls = 0 ∧
    (run ctxWritable client8 (.ok []) 10).createCalls = 0 ∧
    (run ctxWritable client8 (.ok []) 10).raised =
      some (.unsupportedRequirement
        "The TES spec does not allow for writable inputs") := by
  refine ⟨rfl, rfl, rfl⟩

/-- C2 amended: cleanup (removal of the staging directory when set and
existing, and of the temporary directory exactly when the caller opted in)
is executed exactly once on every path that reaches the output-collection
phase — success, terminal remote failure, exhausted poll retries, and
collection failure alike; on fatal pre-polling errors (translation or
submission exceptions, or a diagnostic-fetch exception) the exception
escapes `run` and cleanup does not execute. -/
theorem c2_cleanup_once_on_collection_paths
    (ctx : Ctx) (client : Client) (fuel : Nat) (t : TesTask) (tid : String)
    (st : LoopSt) (collectResult : Except Unit (List (String × String)))
    (h1 : create_task_msg ctx = .ok t)
    (h2 : client.createTask = .ok tid)
    (h3 : pollLoop client fuel initLoopSt = .done st) :
    (run ctx client collectResult fuel).cleanupCalls = 1 ∧
    (run ctx client collectResult fuel).cleanupRec = some (cleanup ctx) := by
  constructor <;> simp [run, h1, h2, h3]

/-- Witness for C2 amended at a concrete input: a failing task with failing
collection still cleans up exactly once, removing the staging directory
and (with `rm_tmpdir = false`) keeping the temporary directory. -/
theorem c2_cleanup_once_witness :
    (run baseCtx clientExecErr (.error ()) 10).cleanupCalls = 1 ∧
    (run baseCtx clientExecErr (.error ()) 10).cleanupRec =
      some (cleanup baseCtx) :=
  c2_cleanup_once_on_collection_paths baseCtx clientExecErr 10 _ _ _
    (.error ()) rfl rfl rfl

/-! ## C3: the diagnostic fetch -/

/-- The polling loop performs the diagnostic `FULL` fetch exactly once when
it observes a terminal state other than `COMPLETE` (whether the fetch
succeeds or raises), and never otherwise: starting from a fetch count of
zero, a normal exit in a failed terminal state carries count 1, an exit by
a raised fetch carries count 1, and a normal exit in `COMPLETE` or in a
non-terminal state carries count 0. -/
theorem pollLoop_fullIdx (client : Client) :
    ∀ (fuel : Nat) (st : LoopSt), st.fullIdx = 0 →
      (∀ st', pollLoop client fuel st = .done st' →
        ((st'.state ∈ terminal_states ∧ st'.state ≠ "COMPLETE") →
          st'.fullIdx = 1) ∧
        ((st'.state ∉ terminal_states ∨ st'.state = "COMPLETE") →
          st'.fullIdx = 0)) ∧
      (∀ st' e, pollLoop client fuel st = .raised st' e → st'.fullIdx = 1) := by
  intro fuel
  induction fuel with
  | zero =>
    intro st h0
    constructor
    · intro st' hd
      simp [pollLoop] at hd
    · intro st' e hr
      simp [pollLoop] at hr
  | succ n ih =>
    intro st h0
    constructor
    · intro st' hd
      rw [pollLoop] at hd
      by_cases hterm : st.state ∈ terminal_states
      · rw [if_pos hterm] at hd
        by_cases hc : st.state = "COMPLETE"
        · rw [if_neg (not_not_intro hc)] at hd
          cases hd
          refine ⟨fun hcontra => absurd hc hcontra.2, fun _ => h0⟩
        · rw [if_pos hc] at hd
          rcases hfull : client.getTaskFull st.fullIdx with e | u
          · rw [hfull] at hd
            simp at hd
          · rw [hfull] at hd
            simp only [] at hd
            cases hd
            refine ⟨fun _ => by simp [h0], fun hcontra => ?_⟩
            rcases hcontra with hnt | hcm
            · exact absurd hterm hnt
            · exact absurd hcm hc
      · rw [if_neg hterm] at hd
        rcases hpoll : client.getTaskMinimal st.pollIdx with e | s
        · rw [hpoll] at hd
          simp only [] at hd
          by_cases htry : st.currentTry ≤ 10
          · rw [if_pos htry] at hd
            refine (ih _ ?_).1 st' hd
            exact h0
          · rw [if_neg htry] at hd
            cases hd
            refine ⟨fun hcontra => absurd hcontra.1 hterm, fun _ => h0⟩
        · rw [hpoll] at hd
          simp only [] at hd
          refine (ih _ ?_).1 st' hd
          exact h0
    · intro st' e hr
      rw [pollLoop] at hr
      by_cases hterm : st.state ∈ terminal_states
      · rw [if_pos hterm] at hr
        by_cases hc : st.state = "COMPLETE"
        · rw [if_neg (not_not_intro hc)] at hr
          cases hr
        · rw [if_pos hc] at hr
          rcases hfull : client.getTaskFull st.fullIdx with e' | u
          · rw [hfull] at hr
            simp only [] at hr
            cases hr
            simp [h0]
          · rw [hfull] at hr
            simp at hr
      · rw [if_neg hterm] at hr
        rcases hpoll : client.getTaskMinimal st.pollIdx with e' | s
        · rw [hpoll] at hr
          simp only [] at hr
          by_cases htry : st.currentTry ≤ 10
          · rw [if_pos htry] at hr
            refine (ih _ ?_).2 st' e hr
            exact h0
          · rw [if_neg htry] at hr
            cases hr
        · rw [hpoll] at hr
          simp only [] at hr
          refine (ih _ ?_).2 st' e hr
          exact h0

/-- C3 counterexample: the loop observes `EXECUTOR_ERROR`, attempts the
diagnostic fetch, the fetch raises — and the exception escapes `run`: no
callback is invoked and cleanup does not run, so the fetch failure is
fatal, contrary to the claim. -/
theorem c3_counterexample :
    (run baseCtx clientDiagFail (.ok []) 10).fullCalls = 1 ∧
    (run baseCtx clientDiagFail (.ok []) 10).raised =
      some (.clientError "diag-boom") ∧
    (run baseCtx clientDiagFail (.ok []) 10).callback = none ∧
    (run baseCtx clientDiagFail (.ok []) 10).cleanupCalls = 0 := by
  refine ⟨rfl, rfl, rfl, rfl⟩

/-- C3 amended: when the polling loop observes a terminal state other than
`COMPLETE`, a single diagnostic `FULL` fetch is attempted — but a failure
(exception) of this fetch is **fatal**: it escapes `run` unguarded, so
neither the failure callback nor cleanup runs. -/
theorem c3_single_diagnostic_fetch_and_fatal_failure :
    (∀ (client : Client) (fuel : Nat) (st : LoopSt),
      pollLoop client fuel initLoopSt = .done st →
      st.state ∈ terminal_states → st.state ≠ "COMPLETE" →
      st.fullIdx = 1) ∧
    (∀ (ctx : Ctx) (client : Client) (fuel : Nat) (t : TesTask)
      (tid : String) (st : LoopSt) (e : String)
      (collectResult : Except Unit (List (String × String))),
      create_task_msg ctx = .ok t →
      client.createTask = .ok tid →
      pollLoop client fuel initLoopSt = .raised st e →
      (run ctx client collectResult fuel).fullCalls = 1 ∧
      (run ctx client collectResult fuel).raised = some (.clientError e) ∧
      (run ctx client collectResult fuel).callback = none ∧
      (run ctx client collectResult fuel).cleanupCalls = 0) := by
  constructor
  · intro client fuel st hd hterm hc
    exact ((pollLoop_fullIdx client fuel initLoopSt rfl).1 st hd).1 ⟨hterm, hc⟩
  · intro ctx client fuel t tid st e collectResult h1 h2 h3
    have hfull : st.fullIdx = 1 :=
      (pollLoop_fullIdx client fuel initLoopSt rfl).2 st e h3
    refine ⟨?_, ?_, ?_, ?_⟩ <;> simp [run, h1, h2, h3, hfull]

/-- Witness for C3 amended at concrete inputs: the normally-exiting failed
task has fetch count 1, and the raising fetch leaves no callback and no
cleanup. -/
theorem c3_single_diagnostic_fetch_witness :
    (⟨"EXECUTOR_ERROR", 1, 1, 1⟩ : LoopSt).fullIdx = 1 ∧
    ((run baseCtx clientDiagFail (.ok []) 10).fullCalls = 1 ∧
     (run baseCtx clientDiagFail (.ok []) 10).raised =
       some (.clientError "diag-boom") ∧
     (run baseCtx clientDiagFail (.ok []) 10).callback = none ∧
     (run baseCtx clientDiagFail (.ok []) 10).cleanupCalls = 0) :=
  ⟨c3_single_diagnostic_fetch_and_fatal_failure.1 clientExecErr 10
      ⟨"EXECUTOR_ERROR", 1, 1, 1⟩ rfl (by decide) (by decide),
   c3_single_diagnostic_fetch_and_fatal_failure.2 baseCtx clientDiagFail 10
      _ _ _ _ (.ok []) rfl rfl rfl⟩

/-! ## C4: position of the whole-working-directory output descriptor -/

/-- Whether one builder requirement is a `DockerRequirement` carrying a
non-`None` `dockerOutputDirectory` (the condition under which the loop of
`create_task_msg` appends an extra output descriptor). -/
def has_docker_outdir (i : PyVal) : Bool :=
  match i with
  | .pdict d =>
      isStrEq ((getKey d "class").getD (.pstr "NA")) "DockerRequirement" &&
        (match getKey d "dockerOutputDirectory" with
         | some p => !(isPyNone p)
         | none => false)
  | _ => false

/-- The outputs of `create_task_msg` as a plain list (empty on a raised
translation). -/
def task_outputs : Except Err TesTask → List TesOutput
  | .ok t => t.outputs
  | .error _ => []

/-- A value equal (as a Python `==`) to one string literal is not equal to a
different one. -/
theorem isStrEq_ne {v : PyVal} {a : String} (b : String)
    (h : isStrEq v a = true) (hab : a ≠ b) : isStrEq v b = false := by
  cases v with
  | pstr t =>
    simp [isStrEq] at h ⊢
    rw [h]
    exact hab
  | pnum q => simp [isStrEq]
  | pbool c => simp [isStrEq]
  | pnone => simp [isStrEq]
  | pdict d => simp [isStrEq]
  | plist l => simp [isStrEq]

/-- One successful step of the requirements loop appends exactly one
`dockerOutputDirectory` descriptor when the requirement is a
`DockerRequirement` with a non-`None` `dockerOutputDirectory`, and leaves
the output list unchanged otherwise. -/
theorem req_step_char (ctx : Ctx) (res : Option ResTriple)
    (outs : List TesOutput) (i : PyVal) (acc2 : ReqAcc)
    (h : req_step ctx (res, outs) i = .ok acc2) :
    (has_docker_outdir i = true →
      ∃ o, acc2.2 = outs ++ [o] ∧ o.name = "dockerOutputDirectory" ∧
        o.type = "DIRECTORY") ∧
    (has_docker_outdir i = false → acc2.2 = outs) := by
  rcases i with s | q | b | _ | d | l
  · simp [req_step] at h
  · simp [req_step] at h
  · simp [req_step] at h
  · simp [req_step] at h
  · simp only [req_step] at h
    by_cases hres : isStrEq ((getKey d "class").getD (.pstr "NA"))
        "ResourceRequirement" = true
    · rw [if_pos hres] at h
      have hnd : has_docker_outdir (.pdict d) = false := by
        simp [has_docker_outdir, isStrEq_ne "DockerRequirement" hres (by decide)]
      split at h
      · cases h
      · rcases hram : toNum (sel_min_max d "ramMin" "ramMax") with e | rq
        · rw [hram] at h
          cases h
        · rw [hram] at h
          rcases hdisk : toNum (sel_min_max d "outdirMin" "outdirMax")
              with e | dq
          · rw [hdisk] at h
            cases h
          · rw [hdisk] at h
            simp only [] at h
            cases h
            constructor
            · intro hc
              rw [hnd] at hc
              cases hc
            · intro _
              rfl
    · rw [if_neg hres] at h
      by_cases hdoc : isStrEq ((getKey d "class").getD (.pstr "NA"))
          "DockerRequirement" = true
      · rw [if_pos hdoc] at h
        rcases hout : getKey d "dockerOutputDirectory" with _ | p
        · rw [hout] at h
          simp only [] at h
          cases h
          have hnd : has_docker_outdir (.pdict d) = false := by
            simp [has_docker_outdir, hout]
          constructor
          · intro hc
            rw [hnd] at hc
            cases hc
          · intro _
            rfl
        · rw [hout] at h
          simp only [] at h
          by_cases hpn : isPyNone p = true
          · rw [if_pos hpn] at h
            cases h
            have hnd : has_docker_outdir (.pdict d) = false := by
              simp [has_docker_outdir, hout, hpn]
            constructor
            · intro hc
              rw [hnd] at hc
              cases hc
            · intro _
              rfl
          · rw [if_neg hpn] at h
            rcases hps : asStr p with e | ps
            · rw [hps] at h
              cases h
            · rw [hps] at h
              simp only [] at h
              cases h
              have hdt : has_docker_outdir (.pdict d) = true := by
                simp [has_docker_outdir, hdoc, hout]
                simpa using hpn
              constructor
              · intro _
                exact ⟨_, rfl, rfl, rfl⟩
              · intro hc
                rw [hdt] at hc
                cases hc
      · rw [if_neg hdoc] at h
        cases h
        have hnd : has_docker_outdir (.pdict d) = false := by
          simp [has_docker_outdir]
          intro hcontra
          simp [hcontra] at hdoc
        constructor
        · intro hc
          rw [hnd] at hc
          cases hc
        · intro _
          rfl
  · simp [req_step] at h

/-- The requirements loop only ever appends `dockerOutputDirectory`
descriptors to the output list it is given, and appends none exactly when
no requirement is a `DockerRequirement` with a non-`None`
`dockerOutputDirectory`. -/
theorem req_loop_only_appends (ctx : Ctx) :
    ∀ (reqs : List PyVal) (res : Option ResTriple) (outs : List TesOutput)
      (acc : ReqAcc), req_loop ctx reqs (res, outs) = .ok acc →
      ∃ extra, acc.2 = outs ++ extra ∧
        (extra = [] ↔ ∀ i ∈ reqs, has_docker_outdir i = false) ∧
        ∀ o ∈ extra, o.name = "dockerOutputDirectory" ∧ o.type = "DIRECTORY" := by
  intro reqs
  induction reqs with
  | nil =>
    intro res outs acc h
    simp [req_loop] at h
    refine ⟨[], by simp [← h], by simp, by simp⟩
  | cons i rest ih =>
    intro res outs acc h
    rw [req_loop] at h
    rcases hstep : req_step ctx (res, outs) i with e | acc2
    · rw [hstep] at h
      simp at h
    · rw [hstep] at h
      simp only [] at h
      obtain ⟨res2, outs2⟩ := acc2
      rcases hdi : has_docker_outdir i with _ | _
      · have houts2 : outs2 = outs :=
          (req_step_char ctx res outs i (res2, outs2) hstep).2 hdi
        rw [houts2] at h
        obtain ⟨extra, he1, he2, he3⟩ := ih res2 outs acc h
        refine ⟨extra, he1, ?_, he3⟩
        rw [he2]
        constructor
        · intro hall j hj
          rcases List.mem_cons.mp hj with hj | hj
          · rw [hj]
            exact hdi
          · exact hall j hj
        · intro hall j hj
          exact hall j (List.mem_cons_of_mem i hj)
      · obtain ⟨o, houts2, hon, hot⟩ :=
          (req_step_char ctx res outs i (res2, outs2) hstep).1 hdi
        simp only [] at houts2
        rw [houts2] at h
        obtain ⟨extra, he1, he2, he3⟩ := ih res2 (outs ++ [o]) acc h
        refine ⟨o :: extra, by simp [he1], ?_, ?_⟩
        · constructor
          · intro hcontra
            exact absurd hcontra (by simp)
          · intro hall
            have hfa := hall i (by simp)
            rw [hdi] at hfa
            cases hfa
        · intro x hx
          rcases List.mem_cons.mp hx with hx | hx
          · rw [hx]
            exact ⟨hon, hot⟩
          · exact he3 x hx

/-- A job whose (builder) requirements declare a `DockerRequirement` with
an explicit in-container output directory. -/
def ctxDockerOut : Ctx :=
  { baseCtx with builder_requirements :=
      [.pdict [("class", .pstr "DockerRequirement"),
               ("dockerOutputDirectory", .pstr "/docker/out")]] }

/-- C4 counterexample: with a `DockerRequirement` declaring
`dockerOutputDirectory`, the last output descriptor of the produced task is
the `dockerOutputDirectory` descriptor, not the whole-working-directory
descriptor — so the workdir descriptor is not always last. -/
theorem c4_counterexample :
    (task_outputs (create_task_msg ctxDockerOut)).map TesOutput.name =
      ["workdir", "dockerOutputDirectory"] ∧
    ((task_outputs (create_task_msg ctxDockerOut)).getLast?).map
        TesOutput.name ≠ some "workdir" := by
  refine ⟨rfl, by decide⟩

/-- C4 amended: the directory-typed whole-working-directory descriptor is
always present, placed directly after the stdout/stderr descriptors; it is
the last element exactly when no `DockerRequirement` declares a non-`None`
`dockerOutputDirectory` — otherwise the `dockerOutputDirectory` descriptors
(and only those) follow it. -/
theorem c4_workdir_descriptor_position (ctx : Ctx) (t : TesTask)
    (h : create_task_msg ctx = .ok t) :
    ∃ extra, t.outputs = stream_outputs ctx ++ [workdir_output ctx] ++ extra ∧
      (extra = [] ↔ ∀ i ∈ ctx.builder_requirements,
        has_docker_outdir i = false) ∧
      ∀ o ∈ extra, o.name = "dockerOutputDirectory" ∧ o.type = "DIRECTORY" := by
  rw [create_task_msg] at h
  rcases hin : get_inputs ctx with e | ins
  · rw [hin] at h; cases h
  · rw [hin] at h
    simp only [] at h
    rcases hcont : get_container ctx with e | cont
    · rw [hcont] at h; cases h
    · rw [hcont] at h
      simp only [] at h
      rcases hloop : req_loop ctx ctx.builder_requirements
          (none, stream_outputs ctx ++ [workdir_output ctx]) with e | acc
      · rw [hloop] at h; cases h
      · rw [hloop] at h
        simp only [] at h
        rcases himg : asStr cont with e | img
        · rw [himg] at h; cases h
        · rw [himg] at h
          simp only [] at h
          cases h
          obtain ⟨extra, he1, he2, he3⟩ :=
            req_loop_only_appends ctx ctx.builder_requirements none
              (stream_outputs ctx ++ [workdir_output ctx]) acc hloop
          exact ⟨extra, by simpa using he1, he2, he3⟩

/-- Witness for C4 amended at a concrete input: the minimal job (no docker
output directory declared) has the workdir descriptor last. -/
theorem c4_workdir_descriptor_witness :
    task_outputs (create_task_msg baseCtx) =
      stream_outputs baseCtx ++ [workdir_output baseCtx] := by
  obtain ⟨extra, h1, h2, _⟩ := c4_workdir_descriptor_position baseCtx _ rfl
  have hex : extra = [] := by
    apply h2.2
    intro i hi
    simp [baseCtx] at hi
  subst hex
  rw [List.append_nil] at h1
  exact h1

/-! ## C5: container image resolution -/

/-- The dict of a requirement/hint entry when it is a `DockerRequirement`,
else `none`. -/
def docker_req_dict (i : PyVal) : Option (List (String × PyVal)) :=
  match i with
  | .pdict d =>
      if isStrEq ((getKey d "class").getD (.pstr "NA")) "DockerRequirement"
      then some d else none
  | _ => none

/-- What the source's fold actually computes: the **last**
`DockerRequirement` alone decides the image — its `dockerPull`, else its
`dockerImageId`, else the hard-coded `"python:2.7"` (NOT the configured
default); only when no `DockerRequirement` occurs at all does the
configured default (else the hard-coded fallback) survive. -/
def container_resolution (ctx : Ctx) : PyVal :=
  match ((ctx.spec_requirements ++ ctx.spec_hints).filterMap
      docker_req_dict).getLast? with
  | some d =>
      (getKey d "dockerPull").getD
        ((getKey d "dockerImageId").getD (.pstr "python:2.7"))
  | none =>
      match ctx.default_container with
      | some c => .pstr c
      | none => .pstr "python:2.7"

/-- Modelled from the claim's words, for comparison: an explicit
`dockerPull`/`dockerImageId` overrides the configured default image, which
overrides the hard-coded fallback; among several `DockerRequirement`
entries the last write wins. -/
def get_container_claim (ctx : Ctx) : String :=
  let explicitImg :=
    ((ctx.spec_requirements ++ ctx.spec_hints).filterMap
        docker_req_dict).foldl
      (fun acc d =>
        match getKey d "dockerPull" with
        | some (.pstr s) => some s
        | _ =>
          match getKey d "dockerImageId" with
          | some (.pstr s) => some s
          | _ => acc)
      none
  match explicitImg with
  | some s => s
  | none =>
    match ctx.default_container with
    | some c => c
    | none => "python:2.7"

/-- The container fold, characterized: with all entries dicts, the result
is decided by the last `DockerRequirement` (if any), else the incoming
accumulator survives. -/
theorem get_container_loop_spec (default : String) :
    ∀ (reqs : List PyVal) (container : PyVal),
      (∀ i ∈ reqs, ∃ d, i = PyVal.pdict d) →
      get_container_loop default reqs container = .ok
        (match (reqs.filterMap docker_req_dict).getLast? with
         | some d =>
             (getKey d "dockerPull").getD
               ((getKey d "dockerImageId").getD (.pstr default))
         | none => container) := by
  intro reqs
  induction reqs with
  | nil =>
    intro container _
    simp [get_container_loop]
  | cons i rest ih =>
    intro container hall
    obtain ⟨d, hd⟩ := hall i (by simp)
    subst hd
    rw [get_container_loop]
    by_cases hdoc : isStrEq ((getKey d "class").getD (.pstr "NA"))
        "DockerRequirement" = true
    · rw [if_pos hdoc]
      rw [ih _ (fun j hj => hall j (List.mem_cons_of_mem _ hj))]
      cases hfm : rest.filterMap docker_req_dict with
      | nil => simp [hfm, List.filterMap_cons, docker_req_dict, hdoc]
      | cons x xs =>
          simp only [hfm, List.filterMap_cons, docker_req_dict, hdoc,
            if_pos, List.getLast?_cons_cons]
          cases hl : (x :: xs).getLast? with
          | none => simp at hl
          | some y => rfl
    · rw [if_neg hdoc]
      rw [ih _ (fun j hj => hall j (List.mem_cons_of_mem _ hj))]
      have hskip : docker_req_dict (.pdict d) = none := by
        simp [docker_req_dict, hdoc]
      simp [List.filterMap_cons, hskip]

/-- A job with one `DockerRequirement` that carries neither `dockerPull`
nor `dockerImageId`, together with a configured default container. -/
def ctxDockerEmpty : Ctx :=
  { baseCtx with
      default_container := some "configured/image"
      spec_requirements := [.pdict [("class", .pstr "DockerRequirement")]] }

/-- C5 counterexample: with a configured default image and a
`DockerRequirement` carrying neither `dockerPull` nor `dockerImageId`, the
claimed resolution order yields the configured default, but the code
resolves to the hard-coded fallback `"python:2.7"`: the keyless
requirement overwrites the configured default with the hard-coded one. -/
theorem c5_counterexample :
    get_container ctxDockerEmpty = .ok (.pstr "python:2.7") ∧
    get_container_claim ctxDockerEmpty = "configured/image" ∧
    "python:2.7" ≠ "configured/image" := by
  refine ⟨rfl, rfl, by decide⟩

/-- C5 amended: with all requirement/hint entries well-formed (dicts), the
image is decided by the **last** `DockerRequirement` in iteration order
over requirements followed by hints: its `dockerPull`, else its
`dockerImageId`, else the hard-coded fallback `"python:2.7"` — a keyless
last `DockerRequirement` thus bypasses the configured default image.  The
configured default only decides the image when no `DockerRequirement` is
present at all, and the hard-coded fallback applies when additionally no
default is configured. -/
theorem c5_last_docker_requirement_decides
    (ctx : Ctx)
    (h : ∀ i ∈ ctx.spec_requirements ++ ctx.spec_hints,
      ∃ d, i = PyVal.pdict d) :
    get_container ctx = .ok (container_resolution ctx) := by
  rw [get_container, get_container_loop_spec "python:2.7" _ _ h,
    container_resolution]

/-- Witness for C5 amended at a concrete input: the keyless-requirement job
resolves to the hard-coded fallback. -/
theorem c5_last_docker_requirement_witness :
    get_container ctxDockerEmpty = .ok (container_resolution ctxDockerEmpty) :=
  c5_last_docker_requirement_decides ctxDockerEmpty (by
    intro i hi
    simp [ctxDockerEmpty, baseCtx] at hi
    exact ⟨_, hi⟩)

/-! ## C7 and C9: resource-requirement extraction -/

/-- The requirements loop splits over list append. -/
theorem req_loop_append (ctx : Ctx) :
    ∀ (xs ys : List PyVal) (acc : ReqAcc),
      req_loop ctx (xs ++ ys) acc =
        match req_loop ctx xs acc with
        | .error e => .error e
        | .ok acc2 => req_loop ctx ys acc2 := by
  intro xs
  induction xs with
  | nil =>
    intro ys acc
    simp [req_loop]
  | cons x rest ih =>
    intro ys acc
    rw [List.cons_append, req_loop, req_loop]
    rcases hstep : req_step ctx acc x with e | acc2
    · rfl
    · exact ih ys acc2

/-- C7: a `ResourceRequirement` whose selected cores, RAM or disk bound is
a string (a dynamic expression) makes `create_task_msg` raise
`UnsupportedRequirement` (given that input resolution, container
resolution, and the requirements preceding it succeed), so no task record
is ever built, and `run` on such a job never calls the remote
`createTask`. -/
theorem c7_string_resource_bound_raises
    (ctx : Ctx) (pre post : List PyVal) (rr : List (String × PyVal))
    (ins : List TesInput) (cont : PyVal) (acc : ReqAcc)
    (hreqs : ctx.builder_requirements = pre ++ PyVal.pdict rr :: post)
    (hclass : isStrEq ((getKey rr "class").getD (.pstr "NA"))
      "ResourceRequirement" = true)
    (hstr : isStr (sel_min_max rr "coresMin" "coresMax") = true ∨
      isStr (sel_min_max rr "ramMin" "ramMax") = true ∨
      isStr (sel_min_max rr "outdirMin" "outdirMax") = true)
    (hin : get_inputs ctx = .ok ins)
    (hcont : get_container ctx = .ok cont)
    (hpre : req_loop ctx pre
      (none, stream_outputs ctx ++ [workdir_output ctx]) = .ok acc) :
    create_task_msg ctx = .error (.unsupportedRequirement
      "cwl-tes does not support dynamic resource requests") ∧
    ∀ (client : Client) (collectResult : Except Unit (List (String × String)))
      (fuel : Nat),
      (run ctx client collectResult fuel).createCalls = 0 ∧
      (run ctx client collectResult fuel).raised =
        some (.unsupportedRequirement
          "cwl-tes does not support dynamic resource requests") := by
  have hbad : ((isPyNone (sel_min_max rr "coresMin" "coresMax") ||
      isStr (sel_min_max rr "coresMin" "coresMax")) ||
      (isPyNone (sel_min_max rr "ramMin" "ramMax") ||
      isStr (sel_min_max rr "ramMin" "ramMax")) ||
      (isPyNone (sel_min_max rr "outdirMin" "outdirMax") ||
      isStr (sel_min_max rr "outdirMin" "outdirMax"))) = true := by
    rcases hstr with h | h | h <;> simp [h]
  have hstep : req_step ctx acc (.pdict rr) = .error (.unsupportedRequirement
      "cwl-tes does not support dynamic resource requests") := by
    simp only [req_step]
    rw [if_pos hclass, if_pos hbad]
  have hloop : req_loop ctx ctx.builder_requirements
      (none, stream_outputs ctx ++ [workdir_output ctx]) =
      .error (.unsupportedRequirement
        "cwl-tes does not support dynamic resource requests") := by
    rw [hreqs, req_loop_append, hpre]
    simp only []
    rw [req_loop, hstep]
  have hmsg : create_task_msg ctx = .error (.unsupportedRequirement
      "cwl-tes does not support dynamic resource requests") := by
    rw [create_task_msg, hin]
    simp only []
    rw [hcont]
    simp only []
    rw [hloop]
  refine ⟨hmsg, ?_⟩
  intro client collectResult fuel
  constructor <;> simp [run, hmsg]

/-- A job with a `ResourceRequirement` carrying a dynamic (string) RAM
expression. -/
def ctxStrRam : Ctx :=
  { baseCtx with builder_requirements :=
      [.pdict [("class", .pstr "ResourceRequirement"),
               ("coresMin", .pnum 1),
               ("ramMin", .pstr "$(inputs.mem)"),
               ("outdirMin", .pnum 10)]] }

/-- Witness for C7 at a concrete input: the string-valued `ramMin` makes
translation fail and `run` never submits. -/
theorem c7_string_resource_bound_witness :
    create_task_msg ctxStrRam = .error (.unsupportedRequirement
      "cwl-tes does not support dynamic resource requests") ∧
    (run ctxStrRam client8 (.ok []) 10).createCalls = 0 ∧
    (run ctxStrRam client8 (.ok []) 10).raised =
      some (.unsupportedRequirement
        "cwl-tes does not support dynamic resource requests") := by
  have h := c7_string_resource_bound_raises ctxStrRam [] [] _ _ _ _ rfl rfl
    (.inr (.inl rfl)) rfl rfl rfl
  exact ⟨h.1, (h.2 client8 (.ok []) 10).1, (h.2 client8 (.ok []) 10).2⟩

/-- C9: numeric RAM and disk bounds are converted with the exact factor
1/953.674 (mebibytes to gigabytes): when the last builder requirement is a
`ResourceRequirement` with numeric `coresMin`, `ramMin` and `outdirMin`,
the produced task claims `ram_gb = r / 953.674` and
`disk_gb = d / 953.674` exactly, and passes the cores value through. -/
theorem c9_resource_conversion_exact
    (ctx : Ctx) (pre : List PyVal) (rr : List (String × PyVal))
    (c r d : Rat) (ins : List TesInput) (cont : PyVal) (img : String)
    (acc : ReqAcc)
    (hreqs : ctx.builder_requirements = pre ++ [PyVal.pdict rr])
    (hclass : isStrEq ((getKey rr "class").getD (.pstr "NA"))
      "ResourceRequirement" = true)
    (hc : getKey rr "coresMin" = some (.pnum c))
    (hr : getKey rr "ramMin" = some (.pnum r))
    (hd : getKey rr "outdirMin" = some (.pnum d))
    (hin : get_inputs ctx = .ok ins)
    (hcont : get_container ctx = .ok cont)
    (himg : asStr cont = .ok img)
    (hpre : req_loop ctx pre
      (none, stream_outputs ctx ++ [workdir_output ctx]) = .ok acc) :
    ∃ t, create_task_msg ctx = .ok t ∧
      t.resources.ram_gb = some (r / (953.674 : Rat)) ∧
      t.resources.disk_gb = some (d / (953.674 : Rat)) ∧
      t.resources.cpu_cores = some (.pnum c) := by
  have hstep : req_step ctx acc (.pdict rr) =
      .ok (some (.pnum c, r / (953.674 : Rat), d / (953.674 : Rat)),
        acc.2) := by
    simp only [req_step]
    rw [if_pos hclass]
    simp [sel_min_max, hc, hr, hd, isPyNone, isStr, toNum]
  have hloop : req_loop ctx ctx.builder_requirements
      (none, stream_outputs ctx ++ [workdir_output ctx]) =
      .ok (some (.pnum c, r / (953.674 : Rat), d / (953.674 : Rat)),
        acc.2) := by
    rw [hreqs, req_loop_append, hpre]
    simp only []
    rw [req_loop, hstep]
    simp only []
    rw [req_loop]
  rw [create_task_msg, hin]
  simp only []
  rw [hcont]
  simp only []
  rw [hloop]
  simp only []
  rw [himg]
  exact ⟨_, rfl, rfl, rfl, rfl⟩

/-- A job whose `ResourceRequirement` asks for 2 cores, 1024 MiB of RAM
and 953.674 MiB of output directory. -/
def ctx9 : Ctx :=
  { baseCtx with builder_requirements :=
      [.pdict [("class", .pstr "ResourceRequirement"),
               ("coresMin", .pnum 2),
               ("ramMin", .pnum 1024),
               ("outdirMin", .pnum (953.674 : Rat))]] }

/-- Witness for C9 at a concrete input: an `outdirMin` of 953.674 MiB
yields a disk claim of exactly 1.0 GB. -/
theorem c9_resource_conversion_witness :
    ∃ t, create_task_msg ctx9 = .ok t ∧
      t.resources.ram_gb = some ((1024 : Rat) / (953.674 : Rat)) ∧
      t.resources.disk_gb = some 1 ∧
      t.resources.cpu_cores = some (.pnum 2) := by
  obtain ⟨t, h1, h2, h3, h4⟩ :=
    c9_resource_conversion_exact ctx9 [] _ 2 1024 (953.674 : Rat) _ _ _ _
      rfl rfl rfl rfl rfl rfl rfl rfl rfl
  refine ⟨t, h1, h2, ?_, h4⟩
  rw [h3]
  norm_num

/-! ## C10: writable generated-files entries -/

/-- The generated-files walk splits over list append. -/
theorem parse_listing_append (ctx : Ctx) :
    ∀ (xs ys : List PyVal) (inputs : List TesInput),
      parse_listing ctx (xs ++ ys) inputs =
        match parse_listing ctx xs inputs with
        | .error e => .error e
        | .ok mid => parse_listing ctx ys mid := by
  intro xs
  induction xs with
  | nil =>
    intro ys inputs
    simp [parse_listing]
  | cons x rest ih =>
    intro ys inputs
    rw [List.cons_append, parse_listing, parse_listing]
    rcases hx : parse_listing_item ctx x with e | inp
    · rfl
    · exact ih ys (inputs ++ [inp])

/-- C10: a generated-files entry whose mapping contains the key `writable`
at all — whatever its value — makes `parse_listing` raise
`UnsupportedRequirement` as soon as the walk reaches it (given the entries
before it are accepted), without producing a descriptor for that entry and
regardless of the entries after it; consequently translation fails and
`run` on such a job never calls the remote `createTask`. -/
theorem c10_writable_entry_raises
    (ctx : Ctx) (pre post : List PyVal) (idict : List (String × PyVal))
    (w : PyVal) (ins0 mid : List TesInput)
    (hw : getKey idict "writable" = some w)
    (hlist : ctx.listing = pre ++ PyVal.pdict idict :: post)
    (hjo : job_order_walk ctx.joborder [] = .ok ins0)
    (hpre : parse_listing ctx pre ins0 = .ok mid) :
    parse_listing ctx (pre ++ PyVal.pdict idict :: post) ins0 =
      .error (.unsupportedRequirement
        "The TES spec does not allow for writable inputs") ∧
    get_inputs ctx = .error (.unsupportedRequirement
      "The TES spec does not allow for writable inputs") ∧
    create_task_msg ctx = .error (.unsupportedRequirement
      "The TES spec does not allow for writable inputs") ∧
    ∀ (client : Client) (collectResult : Except Unit (List (String × String)))
      (fuel : Nat),
      (run ctx client collectResult fuel).createCalls = 0 ∧
      (run ctx client collectResult fuel).raised =
        some (.unsupportedRequirement
          "The TES spec does not allow for writable inputs") := by
  have hitem : parse_listing_item ctx (.pdict idict) =
      .error (.unsupportedRequirement
        "The TES spec does not allow for writable inputs") := by
    simp [parse_listing_item, hw]
  have hwalk : parse_listing ctx (pre ++ PyVal.pdict idict :: post) ins0 =
      .error (.unsupportedRequirement
        "The TES spec does not allow for writable inputs") := by
    rw [parse_listing_append, hpre]
    simp only []
    rw [parse_listing, hitem]
  have hins : get_inputs ctx = .error (.unsupportedRequirement
      "The TES spec does not allow for writable inputs") := by
    rw [get_inputs, hjo]
    simp only []
    rw [hlist, hwalk]
  have hmsg : create_task_msg ctx = .error (.unsupportedRequirement
      "The TES spec does not allow for writable inputs") := by
    rw [create_task_msg, hins]
  refine ⟨hwalk, hins, hmsg, ?_⟩
  intro client collectResult fuel
  constructor <;> simp [run, hmsg]

/-- Witness for C10 at a concrete input: an entry with `writable: false`
(a false value, but the key present) already aborts translation and
prevents submission. -/
theorem c10_writable_entry_witness :
    parse_listing ctxWritable
        ([] ++ PyVal.pdict [("writable", .pbool false)] :: []) [] =
      .error (.unsupportedRequirement
        "The TES spec does not allow for writable inputs") ∧
    get_inputs ctxWritable = .error (.unsupportedRequirement
      "The TES spec does not allow for writable inputs") ∧
    create_task_msg ctxWritable = .error (.unsupportedRequirement
      "The TES spec does not allow for writable inputs") ∧
    (run ctxWritable client8 (.ok []) 10).createCalls = 0 ∧
    (run ctxWritable client8 (.ok []) 10).raised =
      some (.unsupportedRequirement
        "The TES spec does not allow for writable inputs") := by
  have h := c10_writable_entry_raises ctxWritable [] []
    [("writable", PyVal.pbool false)] (.pbool false) [] [] rfl rfl rfl rfl
  exact ⟨h.1, h.2.1, h.2.2.1, (h.2.2.2 client8 (.ok []) 10).1,
    (h.2.2.2 client8 (.ok []) 10).2⟩

/-! ## C6: the job-order resolver -/

/-- Field well-formedness of a leaf reference: exactly the condition under
which `create_input` succeeds (string-typed `contents`/`location`, `path`
and `class`). -/
def leafFieldsOk (kvs : List (String × PyVal)) : Bool :=
  match getKey kvs "contents" with
  | some c =>
      isStr c && isStr ((getKey kvs "path").getD .pnone) &&
        isStr ((getKey kvs "class").getD .pnone)
  | none =>
      isStr ((getKey kvs "location").getD .pnone) &&
        isStr ((getKey kvs "path").getD .pnone) &&
        isStr ((getKey kvs "class").getD .pnone)

/-- A string-valued `PyVal` extracts successfully. -/
theorem isStr_ok {v : PyVal} (h : isStr v = true) :
    ∃ s, v = .pstr s ∧ asStr v = .ok s := by
  cases v <;> simp [isStr] at h ⊢
  simp [asStr]

/-- On well-formed leaf fields, `create_input` succeeds and names the
descriptor after the parameter. -/
theorem create_input_ok (k : String) (kvs : List (String × PyVal))
    (h : leafFieldsOk kvs = true) :
    ∃ inp, create_input k kvs = .ok inp ∧ inp.name = k := by
  rcases hc : getKey kvs "contents" with _ | c
  · simp only [leafFieldsOk, hc, Bool.and_eq_true] at h
    obtain ⟨⟨h1, h2⟩, h3⟩ := h
    obtain ⟨s1, _, ha1⟩ := isStr_ok h1
    obtain ⟨s2, _, ha2⟩ := isStr_ok h2
    obtain ⟨s3, _, ha3⟩ := isStr_ok h3
    refine ⟨⟨k, "cwl_input:" ++ k, some s1, s2, none, s3.toUpper⟩, ?_, rfl⟩
    simp only [create_input, hc, ha1, ha2, ha3]
  · simp only [leafFieldsOk, hc, Bool.and_eq_true] at h
    obtain ⟨⟨h1, h2⟩, h3⟩ := h
    obtain ⟨s1, _, ha1⟩ := isStr_ok h1
    obtain ⟨s2, _, ha2⟩ := isStr_ok h2
    obtain ⟨s3, _, ha3⟩ := isStr_ok h3
    refine ⟨⟨k, "cwl_input:" ++ k, none, s2, some s1, s3.toUpper⟩, ?_, rfl⟩
    simp only [create_input, hc, ha1, ha2, ha3]

mutual

/-- The number of leaf file/directory references in a job-order value
tree, counting `secondaryFiles` entries transitively: the specification's
"one descriptor per leaf" count, defined from the tree alone. -/
def countLeaves (v : PyVal) : Nat :=
  match v with
  | .pdict kvs =>
    if isLeafDict kvs then
      1 + (match hsec : getKey kvs "secondaryFiles" with
           | some (.plist fs) =>
             have : sizeOf fs < 1 + sizeOf kvs := by
               have := sizeOf_getKey hsec
               simp at this
               omega
             countList fs
           | _ => 0)
    else countPairs kvs
  | .plist vs => countList vs
  | _ => 0
termination_by sizeOf v
decreasing_by
  all_goals simp_wf <;> try omega

/-- Leaf count of a list of subtrees. -/
def countList (fs : List PyVal) : Nat :=
  match fs with
  | [] => 0
  | f :: rest => countLeaves f + countList rest
termination_by sizeOf fs
decreasing_by
  all_goals simp_wf <;> try omega

/-- Leaf count of the values of a mapping. -/
def countPairs (kvs : List (String × PyVal)) : Nat :=
  match kvs with
  | [] => 0
  | (_, v) :: rest => countLeaves v + countPairs rest
termination_by sizeOf kvs
decreasing_by
  all_goals simp_wf <;> try omega

end

/-- Well-formed job-order value trees: the class over which the
specification promises "exactly one descriptor per leaf, none omitted,
none duplicated".  Scalars are allowed (they contribute nothing); a leaf
reference carries string-typed fields and its `secondaryFiles` (when
present) is a list of well-formed dict entries with string `basename`s; a
non-leaf mapping has only (well-formed) dict values, and a list only
(well-formed) dict elements — precisely the shapes the recursive walk
descends into without hitting its stop rule. -/
inductive WFVal : PyVal → Prop where
  | wstr (s : String) : WFVal (.pstr s)
  | wnum (q : Rat) : WFVal (.pnum q)
  | wbool (b : Bool) : WFVal (.pbool b)
  | wnone : WFVal .pnone
  | leafNoSec (kvs : List (String × PyVal))
      (hl : isLeafDict kvs = true) (hf : leafFieldsOk kvs = true)
      (hs : getKey kvs "secondaryFiles" = none) : WFVal (.pdict kvs)
  | leafSec (kvs : List (String × PyVal)) (fs : List PyVal)
      (hl : isLeafDict kvs = true) (hf : leafFieldsOk kvs = true)
      (hs : getKey kvs "secondaryFiles" = some (.plist fs))
      (hbn : ∀ f ∈ fs, ∃ fkvs bn, f = PyVal.pdict fkvs ∧
        getKey fkvs "basename" = some (.pstr bn))
      (hwf : ∀ f ∈ fs, WFVal f) : WFVal (.pdict kvs)
  | node (kvs : List (String × PyVal))
      (hl : isLeafDict kvs = false)
      (hd : ∀ p ∈ kvs, ∃ d2, p.2 = PyVal.pdict d2)
      (hwf : ∀ p ∈ kvs, WFVal p.2) : WFVal (.pdict kvs)
  | wlist (vs : List PyVal)
      (hd : ∀ v ∈ vs, ∃ d2, v = PyVal.pdict d2)
      (hwf : ∀ v ∈ vs, WFVal v) : WFVal (.plist vs)

/-- The count specification of the resolver on one subtree: from any
accumulator, the walk succeeds and emits exactly `countLeaves v` new
descriptors, in order, after the accumulated ones. -/
def EmitsCount (v : PyVal) : Prop :=
  ∀ (k : String) (inputs : List TesInput),
    ∃ em, parse_job_order k v inputs = .ok (inputs ++ em) ∧
      em.length = countLeaves v

/-- Unfolding: the leaf case of `parse_job_order` without secondary
files. -/
theorem pjo_leaf_nosec (k : String) (kvs : List (String × PyVal))
    (inputs : List TesInput) (inp : TesInput)
    (hl : isLeafDict kvs = true) (hci : create_input k kvs = .ok inp)
    (hs : getKey kvs "secondaryFiles" = none) :
    parse_job_order k (.pdict kvs) inputs = .ok (inputs ++ [inp]) := by
  rw [parse_job_order]
  simp only [hl, if_true, hci]
  split
  · rfl
  · rename_i fs2 heq
    rw [hs] at heq
    cases heq
  · rename_i v hnot hsc
    rw [hs] at hsc
    cases hsc

/-- Unfolding: the leaf case of `parse_job_order` with a secondary-files
list. -/
theorem pjo_leaf_sec (k : String) (kvs : List (String × PyVal))
    (inputs : List TesInput) (inp : TesInput) (fs : List PyVal)
    (hl : isLeafDict kvs = true) (hci : create_input k kvs = .ok inp)
    (hs : getKey kvs "secondaryFiles" = some (.plist fs)) :
    parse_job_order k (.pdict kvs) inputs =
      parse_secondary fs (inputs ++ [inp]) := by
  rw [parse_job_order]
  simp only [hl, if_true, hci]
  split
  · rename_i heq
    rw [hs] at heq
    cases heq
  · rename_i fs2 heq
    rw [hs] at heq
    cases heq
    rfl
  · rename_i v hnot hsc
    rw [hs] at hsc
    cases hsc
    exact ((hnot fs rfl).elim)

/-- Unfolding: the non-leaf dict case of `parse_job_order`. -/
theorem pjo_nonleaf (k : String) (kvs : List (String × PyVal))
    (inputs : List TesInput) (hl : isLeafDict kvs = false) :
    parse_job_order k (.pdict kvs) inputs = parse_pairs kvs inputs := by
  rw [parse_job_order]
  simp [hl]

/-- Unfolding: the list case of `parse_job_order`. -/
theorem pjo_list (k : String) (vs : List PyVal) (inputs : List TesInput) :
    parse_job_order k (.plist vs) inputs = parse_list_elems k 0 vs inputs := by
  simp only [parse_job_order]

/-- Unfolding: the leaf count without secondary files is one. -/
theorem countLeaves_leaf_nosec (kvs : List (String × PyVal))
    (hl : isLeafDict kvs = true)
    (hs : getKey kvs "secondaryFiles" = none) :
    countLeaves (.pdict kvs) = 1 := by
  rw [countLeaves]
  simp only [hl, if_true]
  split
  · rename_i fs2 heq
    rw [hs] at heq
    cases heq
  · rfl

/-- Unfolding: the leaf count with a secondary-files list. -/
theorem countLeaves_leaf_sec (kvs : List (String × PyVal)) (fs : List PyVal)
    (hl : isLeafDict kvs = true)
    (hs : getKey kvs "secondaryFiles" = some (.plist fs)) :
    countLeaves (.pdict kvs) = 1 + countList fs := by
  rw [countLeaves]
  simp only [hl, if_true]
  split
  · rename_i fs2 heq
    rw [hs] at heq
    cases heq
    rfl
  · rename_i hnot
    exact ((hnot fs hs).elim)

/-- Unfolding: the non-leaf dict count. -/
theorem countLeaves_node (kvs : List (String × PyVal))
    (hl : isLeafDict kvs = false) :
    countLeaves (.pdict kvs) = countPairs kvs := by
  rw [countLeaves]
  simp [hl]

/-- Unfolding: the list count. -/
theorem countLeaves_list (vs : List PyVal) :
    countLeaves (.plist vs) = countList vs := by
  simp only [countLeaves]

/-- The secondary-files walk emits exactly the leaf count of its entries
(from any accumulator), given well-formed basenames and the count property
of each entry. -/
theorem parse_secondary_spec :
    ∀ (fs : List PyVal),
      (∀ f ∈ fs, ∃ fkvs bn, f = PyVal.pdict fkvs ∧
        getKey fkvs "basename" = some (.pstr bn)) →
      (∀ f ∈ fs, EmitsCount f) →
      ∀ (inputs : List TesInput),
        ∃ em, parse_secondary fs inputs = .ok (inputs ++ em) ∧
          em.length = countList fs := by
  intro fs
  induction fs with
  | nil =>
    intro _ _ inputs
    refine ⟨[], ?_, ?_⟩
    · simp [parse_secondary]
    · simp [countList]
  | cons f rest ih =>
    intro hbn hec inputs
    obtain ⟨fkvs, bn, hf, hbn1⟩ := hbn f (by simp)
    subst hf
    obtain ⟨em1, h1, hl1⟩ := hec (PyVal.pdict fkvs) (by simp) bn inputs
    obtain ⟨em2, h2, hl2⟩ :=
      ih (fun g hg => hbn g (by simp [hg]))
        (fun g hg => hec g (by simp [hg])) (inputs ++ em1)
    refine ⟨em1 ++ em2, ?_, ?_⟩
    · rw [parse_secondary]
      try simp only []
      rw [hbn1]
      try simp only []
      rw [h1]
      try simp only []
      rw [h2, List.append_assoc]
    · rw [countList]
      simp [hl1, hl2]

/-- The non-leaf dict walk emits exactly the leaf count of its values
(from any accumulator), when all values are dicts with the count
property. -/
theorem parse_pairs_spec :
    ∀ (kvs : List (String × PyVal)),
      (∀ p ∈ kvs, ∃ d2, p.2 = PyVal.pdict d2) →
      (∀ p ∈ kvs, EmitsCount p.2) →
      ∀ (inputs : List TesInput),
        ∃ em, parse_pairs kvs inputs = .ok (inputs ++ em) ∧
          em.length = countPairs kvs := by
  intro kvs
  induction kvs with
  | nil =>
    intro _ _ inputs
    refine ⟨[], ?_, ?_⟩
    · simp [parse_pairs]
    · simp [countPairs]
  | cons p rest ih =>
    intro hd hec inputs
    obtain ⟨a, b⟩ := p
    obtain ⟨d2, hb⟩ := hd (a, b) (by simp)
    simp only [] at hb
    subst hb
    obtain ⟨em1, h1, hl1⟩ := hec (a, .pdict d2) (by simp) a inputs
    obtain ⟨em2, h2, hl2⟩ :=
      ih (fun g hg => hd g (by simp [hg]))
        (fun g hg => hec g (by simp [hg])) (inputs ++ em1)
    refine ⟨em1 ++ em2, ?_, ?_⟩
    · rw [parse_pairs]
      try simp only []
      rw [h1]
      try simp only []
      rw [h2, List.append_assoc]
    · rw [countPairs]
      simp [hl1, hl2]

/-- The list walk emits exactly the leaf count of its elements (from any
accumulator, any name, any start index), when all elements are dicts with
the count property. -/
theorem parse_list_elems_spec :
    ∀ (vs : List PyVal),
      (∀ v ∈ vs, ∃ d2, v = PyVal.pdict d2) →
      (∀ v ∈ vs, EmitsCount v) →
      ∀ (k : String) (i : Nat) (inputs : List TesInput),
        ∃ em, parse_list_elems k i vs inputs = .ok (inputs ++ em) ∧
          em.length = countList vs := by
  intro vs
  induction vs with
  | nil =>
    intro _ _ k i inputs
    refine ⟨[], ?_, ?_⟩
    · simp [parse_list_elems]
    · simp [countList]
  | cons v rest ih =>
    intro hd hec k i inputs
    obtain ⟨d2, hv⟩ := hd v (by simp)
    subst hv
    obtain ⟨em1, h1, hl1⟩ :=
      hec (PyVal.pdict d2) (by simp) (k ++ "[" ++ toString i ++ "]") inputs
    obtain ⟨em2, h2, hl2⟩ :=
      ih (fun g hg => hd g (by simp [hg]))
        (fun g hg => hec g (by simp [hg])) k (i + 1) (inputs ++ em1)
    refine ⟨em1 ++ em2, ?_, ?_⟩
    · rw [parse_list_elems]
      try simp only []
      rw [h1]
      try simp only []
      rw [h2, List.append_assoc]
    · rw [countList]
      simp [hl1, hl2]

/-- A key found in a prefix dict is found in the extended dict. -/
theorem getKey_append_some {k : String} {v : PyVal} :
    ∀ (xs ys : List (String × PyVal)), getKey xs k = some v →
      getKey (xs ++ ys) k = some v := by
  intro xs
  induction xs with
  | nil =>
    intro ys h
    simp [getKey] at h
  | cons p rest ih =>
    intro ys h
    obtain ⟨k1, v1⟩ := p
    by_cases hk : k1 = k
    · simp only [getKey, if_pos hk] at h
      simp only [List.cons_append, getKey, if_pos hk]
      exact h
    · simp only [getKey, if_neg hk] at h
      simp only [List.cons_append, getKey, if_neg hk]
      exact ih ys h

/-- The leaf test is monotone under extending the dict. -/
theorem isLeafDict_append (pre rest : List (String × PyVal))
    (h : isLeafDict pre = true) : isLeafDict (pre ++ rest) = true := by
  simp only [isLeafDict, Bool.and_eq_true, Option.isSome_iff_exists] at h ⊢
  obtain ⟨⟨⟨v1, h1⟩, ⟨v2, h2⟩⟩, ⟨v3, h3⟩⟩ := h
  exact ⟨⟨⟨v1, getKey_append_some _ _ h1⟩, ⟨v2, getKey_append_some _ _ h2⟩⟩,
    ⟨v3, getKey_append_some _ _ h3⟩⟩

/-- A dict that fails the leaf test has a prefix failing it too. -/
theorem isLeafDict_false_prefix (pre rest : List (String × PyVal))
    (h : isLeafDict (pre ++ rest) = false) : isLeafDict pre = false := by
  cases hp : isLeafDict pre
  · rfl
  · rw [isLeafDict_append pre rest hp] at h
    cases h

/-- The non-leaf dict walk stops at the first non-dict value: the entries
after it are never examined. -/
theorem parse_pairs_stop :
    ∀ (pre : List (String × PyVal)) (sk : String) (sv : PyVal)
      (post : List (String × PyVal)) (inputs : List TesInput),
      (∀ p ∈ pre, ∃ d2, p.2 = PyVal.pdict d2) →
      (∀ d2, sv ≠ PyVal.pdict d2) →
      parse_pairs (pre ++ (sk, sv) :: post) inputs =
        parse_pairs pre inputs := by
  intro pre
  induction pre with
  | nil =>
    intro sk sv post inputs _ hnd
    rw [List.nil_append]
    cases sv with
    | pstr s => simp [parse_pairs]
    | pnum q => simp [parse_pairs]
    | pbool b => simp [parse_pairs]
    | pnone => simp [parse_pairs]
    | pdict d2 => exact absurd rfl (hnd d2)
    | plist l => simp [parse_pairs]
  | cons p rest ih =>
    intro sk sv post inputs hd hnd
    obtain ⟨a, b⟩ := p
    obtain ⟨d2, hb⟩ := hd (a, b) (by simp)
    simp only [] at hb
    subst hb
    rw [List.cons_append, parse_pairs, parse_pairs]
    rcases hp : parse_job_order a (.pdict d2) inputs with e | inputs2
    · rfl
    · exact ih sk sv post inputs2
        (fun g hg => hd g (by simp [hg])) hnd

/-- The list walk stops at the first non-dict element: the elements after
it are never examined. -/
theorem parse_list_elems_stop :
    ∀ (pre : List PyVal) (x : PyVal) (post : List PyVal) (k : String)
      (i : Nat) (inputs : List TesInput),
      (∀ v ∈ pre, ∃ d2, v = PyVal.pdict d2) →
      (∀ d2, x ≠ PyVal.pdict d2) →
      parse_list_elems k i (pre ++ x :: post) inputs =
        parse_list_elems k i pre inputs := by
  intro pre
  induction pre with
  | nil =>
    intro x post k i inputs _ hnd
    rw [List.nil_append]
    cases x with
    | pstr s => simp [parse_list_elems]
    | pnum q => simp [parse_list_elems]
    | pbool b => simp [parse_list_elems]
    | pnone => simp [parse_list_elems]
    | pdict d2 => exact absurd rfl (hnd d2)
    | plist l => simp [parse_list_elems]
  | cons v rest ih =>
    intro x post k i inputs hd hnd
    obtain ⟨d2, hv⟩ := hd v (by simp)
    subst hv
    rw [List.cons_append, parse_list_elems, parse_list_elems]
    rcases hp : parse_job_order (k ++ "[" ++ toString i ++ "]")
        (.pdict d2) inputs with e | inputs2
    · rfl
    · exact ih x post k (i + 1) inputs2
        (fun g hg => hd g (by simp [hg])) hnd

/-- On a list of plain leaves (leaf references without secondary files),
the list walk emits one descriptor per element whose name is the parameter
name suffixed by the element's index. -/
theorem parse_list_elems_names :
    ∀ (vs : List PyVal),
      (∀ v ∈ vs, ∃ d2, v = PyVal.pdict d2 ∧ isLeafDict d2 = true ∧
        leafFieldsOk d2 = true ∧ getKey d2 "secondaryFiles" = none) →
      ∀ (k : String) (i : Nat) (inputs : List TesInput),
        ∃ em, parse_list_elems k i vs inputs = .ok (inputs ++ em) ∧
          em.length = vs.length ∧
          ∀ (j : Nat) (hj : j < em.length),
            (em.get ⟨j, hj⟩).name = k ++ "[" ++ toString (i + j) ++ "]" := by
  intro vs
  induction vs with
  | nil =>
    intro _ k i inputs
    refine ⟨[], by simp [parse_list_elems], by simp, ?_⟩
    intro j hj
    simp at hj
  | cons v rest ih =>
    intro hleaf k i inputs
    obtain ⟨d2, hv, hl, hf, hs⟩ := hleaf v (by simp)
    subst hv
    obtain ⟨inp, hci, hname⟩ :=
      create_input_ok (k ++ "[" ++ toString i ++ "]") d2 hf
    obtain ⟨em2, h2, hl2, hn2⟩ :=
      ih (fun g hg => hleaf g (by simp [hg])) k (i + 1) (inputs ++ [inp])
    refine ⟨inp :: em2, ?_, by simp [hl2], ?_⟩
    · rw [parse_list_elems]
      try simp only []
      rw [pjo_leaf_nosec _ _ _ _ hl hci hs]
      try simp only []
      rw [h2, List.append_assoc]
      rfl
    · intro j hj
      cases j with
      | zero =>
        simp only [List.get]
        rw [hname]
        simp
      | succ j2 =>
        simp only [List.get]
        have hj2 : j2 < em2.length := by
          simp at hj
          omega
        have := hn2 j2 hj2
        rw [this]
        have harith : i + 1 + j2 = i + (j2 + 1) := by omega
        rw [harith]

/-- The resolver's count specification holds on every well-formed
job-order value tree. -/
theorem wfval_emits : ∀ (v : PyVal), WFVal v → EmitsCount v := by
  intro v h
  induction h with
  | wstr s =>
    intro k inputs
    refine ⟨[], ?_, ?_⟩
    · simp [parse_job_order]
    · simp [countLeaves]
  | wnum q =>
    intro k inputs
    refine ⟨[], ?_, ?_⟩
    · simp [parse_job_order]
    · simp [countLeaves]
  | wbool b =>
    intro k inputs
    refine ⟨[], ?_, ?_⟩
    · simp [parse_job_order]
    · simp [countLeaves]
  | wnone =>
    intro k inputs
    refine ⟨[], ?_, ?_⟩
    · simp [parse_job_order]
    · simp [countLeaves]
  | leafNoSec kvs hl hf hs =>
    intro k inputs
    obtain ⟨inp, hci, _⟩ := create_input_ok k kvs hf
    refine ⟨[inp], ?_, ?_⟩
    · exact pjo_leaf_nosec k kvs inputs inp hl hci hs
    · rw [countLeaves_leaf_nosec kvs hl hs]
      rfl
  | leafSec kvs fs hl hf hs hbn hwf ih =>
    intro k inputs
    obtain ⟨inp, hci, _⟩ := create_input_ok k kvs hf
    obtain ⟨em, hps, hlen⟩ := parse_secondary_spec fs hbn ih (inputs ++ [inp])
    refine ⟨inp :: em, ?_, ?_⟩
    · rw [pjo_leaf_sec k kvs inputs inp fs hl hci hs, hps,
        List.append_assoc]
      rfl
    · rw [countLeaves_leaf_sec kvs fs hl hs]
      simp [hlen]
      omega
  | node kvs hl hd hwf ih =>
    intro k inputs
    obtain ⟨em, hpp, hlen⟩ := parse_pairs_spec kvs hd ih inputs
    refine ⟨em, ?_, ?_⟩
    · rw [pjo_nonleaf k kvs inputs hl]
      exact hpp
    · rw [countLeaves_node kvs hl]
      exact hlen
  | wlist vs hd hwf ih =>
    intro k inputs
    obtain ⟨em, hpl, hlen⟩ := parse_list_elems_spec vs hd ih k 0 inputs
    refine ⟨em, ?_, ?_⟩
    · rw [pjo_list k vs inputs]
      exact hpl
    · rw [countLeaves_list vs]
      exact hlen

/-- C6: on every well-formed job-order value tree the resolver emits
exactly one input descriptor per leaf reference — including, transitively,
one per `secondaryFiles` entry — with none omitted and none duplicated
(the emitted run has exactly the tree's leaf count, appended in walk order
to the accumulator); a mapping without the three leaf keys is walked
key-by-key and stops at the first non-mapping value, never examining the
entries after it; a list is walked index-by-index and stops at the first
non-mapping element, never examining the elements after it; and list
elements are resolved under the parent name suffixed with their index. -/
theorem c6_resolver_exactly_one_descriptor_per_leaf :
    (∀ (v : PyVal), WFVal v → EmitsCount v) ∧
    (∀ (k : String) (pre : List (String × PyVal)) (sk : String) (sv : PyVal)
      (post : List (String × PyVal)) (inputs : List TesInput),
      isLeafDict (pre ++ (sk, sv) :: post) = false →
      (∀ p ∈ pre, ∃ d2, p.2 = PyVal.pdict d2) →
      (∀ d2, sv ≠ PyVal.pdict d2) →
      parse_job_order k (.pdict (pre ++ (sk, sv) :: post)) inputs =
        parse_job_order k (.pdict pre) inputs) ∧
    (∀ (k : String) (pre : List PyVal) (x : PyVal) (post : List PyVal)
      (inputs : List TesInput),
      (∀ v ∈ pre, ∃ d2, v = PyVal.pdict d2) →
      (∀ d2, x ≠ PyVal.pdict d2) →
      parse_job_order k (.plist (pre ++ x :: post)) inputs =
        parse_job_order k (.plist pre) inputs) ∧
    (∀ (vs : List PyVal),
      (∀ v ∈ vs, ∃ d2, v = PyVal.pdict d2 ∧ isLeafDict d2 = true ∧
        leafFieldsOk d2 = true ∧ getKey d2 "secondaryFiles" = none) →
      ∀ (k : String) (inputs : List TesInput),
        ∃ em, parse_job_order k (.plist vs) inputs = .ok (inputs ++ em) ∧
          em.length = vs.length ∧
          ∀ (j : Nat) (hj : j < em.length),
            (em.get ⟨j, hj⟩).name = k ++ "[" ++ toString j ++ "]") := by
  refine ⟨wfval_emits, ?_, ?_, ?_⟩
  · intro k pre sk sv post inputs hl hd hnd
    have hlp := isLeafDict_false_prefix pre ((sk, sv) :: post) hl
    rw [pjo_nonleaf _ _ _ hl, pjo_nonleaf _ _ _ hlp,
      parse_pairs_stop pre sk sv post inputs hd hnd]
  · intro k pre x post inputs hd hnd
    rw [pjo_list, pjo_list,
      parse_list_elems_stop pre x post k 0 inputs hd hnd]
  · intro vs hleaf k inputs
    obtain ⟨em, h1, h2, h3⟩ := parse_list_elems_names vs hleaf k 0 inputs
    refine ⟨em, ?_, h2, ?_⟩
    · rw [pjo_list]
      exact h1
    · intro j hj
      have := h3 j hj
      rwa [Nat.zero_add] at this

/-- A leaf file reference (fixture). -/
def leafWitA : List (String × PyVal) :=
  [("location", .pstr "file:///data/a.txt"), ("path", .pstr "/data/a.txt"),
   ("class", .pstr "File")]

/-- A secondary-file entry of the fixture leaf. -/
def secWit : List (String × PyVal) :=
  [("basename", .pstr "a.txt.idx"),
   ("location", .pstr "file:///data/a.txt.idx"),
   ("path", .pstr "/data/a.txt.idx"), ("class", .pstr "File")]

/-- A leaf with one secondary file (fixture tree). -/
def vWit : PyVal :=
  .pdict (leafWitA ++ [("secondaryFiles", .plist [.pdict secWit])])

/-- The fixture tree is well-formed. -/
theorem vWit_wf : WFVal vWit := by
  unfold vWit
  apply WFVal.leafSec _ [PyVal.pdict secWit]
  · decide
  · decide
  · rfl
  · intro f hf
    simp at hf
    subst hf
    exact ⟨secWit, "a.txt.idx", rfl, rfl⟩
  · intro f hf
    simp at hf
    subst hf
    exact WFVal.leafNoSec secWit (by decide) (by decide) rfl

/-- Witness for C6 at a concrete input: a leaf with one secondary file
emits exactly its leaf count of descriptors. -/
theorem c6_resolver_witness :
    ∃ em, parse_job_order "reads" vWit [] = .ok ([] ++ em) ∧
      em.length = countLeaves vWit :=
  c6_resolver_exactly_one_descriptor_per_leaf.1 vWit vWit_wf "reads" []

end CwlTes
